import Mathlib

/-
Shallow embedding of the neurostack workflow engine
(src/src/neurostack/core/agents/orchestrator.py).

Python dicts are modelled as insertion-ordered association lists,
Python sets of step ids as duplicate-free lists built by `sadd`,
and the (possibly non-terminating) scheduling loop of
`AgentOrchestrator.run_workflow` as a fuel-indexed recursion that
returns `none` when the given number of loop iterations does not
suffice.  Agent behaviour (`agent.execute`) is external to the
engine and is modelled as an oracle from the loop-iteration index
and the prepared task to either a result value or an error
message, which also covers agents whose behaviour differs between
calls.
-/

namespace Neurostack

/-- A Python runtime value as far as the engine inspects it: the engine
only ever asks `isinstance(task, str)` and applies `str(...)`, so a value
is either a string or an opaque structured payload carrying the string
that `str(...)` would render it as. -/
inductive Val where
  | vstr : String → Val
  | vother : String → Val
deriving DecidableEq

/-- Python `str(v)`: a string renders as itself, a structured payload as
its carried rendering. -/
def strOf : Val → String
  | Val.vstr s => s
  | Val.vother r => r

/-- Lookup in an insertion-ordered association list (Python `d.get(k)` /
`d[k]`). -/
def dlookup {κ : Type} {α : Type} [DecidableEq κ] : List (κ × α) → κ → Option α
  | [], _ => none
  | (k2, v) :: t, k => if k2 = k then some v else dlookup t k

/-- Insertion into an insertion-ordered association list (Python
`d[k] = v`): an existing key keeps its position, a new key is appended. -/
def dinsert {κ : Type} {α : Type} [DecidableEq κ] : List (κ × α) → κ → α → List (κ × α)
  | [], k, v => [(k, v)]
  | (k2, v2) :: t, k, v => if k2 = k then (k2, v) :: t else (k2, v2) :: dinsert t k v

/-- Deletion from an association list (Python `del d[k]`; on the
duplicate-free lists produced by `dinsert` this agrees with removing
the unique entry for the key). -/
def ddelete {κ : Type} {α : Type} [DecidableEq κ] (m : List (κ × α)) (k : κ) : List (κ × α) :=
  m.filter (fun kv => decide (kv.1 ≠ k))

/-- Membership test for a Python set of step ids. -/
def scontains : List String → String → Bool
  | [], _ => false
  | y :: t, x => y == x || scontains t x

/-- Python `s.add(x)` on a set modelled as a duplicate-free list. -/
def sadd (s : List String) (x : String) : List String :=
  if scontains s x then s else s ++ [x]

/-- Python prefix test: does the string starting here begin with `pat`? -/
def leadsWith : List Char → List Char → Bool
  | [], _ => true
  | _ :: _, [] => false
  | p :: ps, c :: cs => p == c && leadsWith ps cs

/-- Python `pat in s` (substring containment). -/
def containsSub : List Char → List Char → Bool
  | [], pat => pat.isEmpty
  | c :: t, pat => leadsWith pat (c :: t) || containsSub t pat

/-- Python `s.replace(pat, rep)`: left-to-right, non-overlapping
replacement of every occurrence; the replacement text is not rescanned.
Each scanning step consumes at least one character, so the recursion is
bounded by the length of the string, carried as a structural fuel
argument (the fuel-exhausted branch is unreachable from `replaceAll`). -/
def replaceAllAux (pat rep : List Char) : Nat → List Char → List Char
  | _, [] => []
  | 0, s => s
  | n + 1, c :: t =>
    if !pat.isEmpty && leadsWith pat (c :: t) then
      rep ++ replaceAllAux pat rep n (List.drop (pat.length - 1) t)
    else
      c :: replaceAllAux pat rep n t

def replaceAll (pat rep s : List Char) : List Char :=
  replaceAllAux pat rep s.length s

/-- Left-to-right split of a string at every non-overlapping occurrence
of `pat` (the list of fragments between occurrences, Python
`s.split(pat)` for non-empty `pat`), fuel-bounded like `replaceAllAux`. -/
def splitByAux (pat : List Char) : Nat → List Char → List (List Char)
  | _, [] => [[]]
  | 0, s => [s]
  | n + 1, c :: t =>
    if !pat.isEmpty && leadsWith pat (c :: t) then
      [] :: splitByAux pat n (List.drop (pat.length - 1) t)
    else
      match splitByAux pat n t with
      | [] => [[c]]
      | h :: r => (c :: h) :: r

def splitBy (pat s : List Char) : List (List Char) :=
  splitByAux pat s.length s

/-- Python `rep.join(fragments)`. -/
def joinWith (rep : List Char) : List (List Char) → List Char
  | [] => []
  | [x] => x
  | x :: y :: r => x ++ rep ++ joinWith rep (y :: r)

/-- The placeholder text for a step id, Python
`f"\x7b\x7bstep.\x7bstep_id\x7d\x7d\x7d"`, i.e. the characters of
`\x7bstep.<id>\x7d`. -/
def placeholderOf (i : String) : List Char :=
  ("\x7bstep." ++ i ++ "\x7d").data

/-- One iteration of the substitution loop in
`AgentOrchestrator._prepare_task`: if the id's placeholder occurs in the
current string, replace every occurrence by the stringified result. -/
def substituteOne (acc : List Char) (kv : String × Val) : List Char :=
  if containsSub acc (placeholderOf kv.1) then
    replaceAll (placeholderOf kv.1) (strOf kv.2).data acc
  else
    acc

/-- `AgentOrchestrator._prepare_task`: a string task has the placeholder
of each id in `step_results` substituted, iterating the dict in
insertion order; any non-string task is returned unchanged. -/
def prepare_task (task : Val) (step_results : List (String × Val)) : Val :=
  match task with
  | Val.vstr s => Val.vstr (String.mk (step_results.foldl substituteOne s.data))
  | t => t

/-- `WorkflowState` (orchestrator.py lines 21-27). -/
inductive WorkflowState where
  | pending
  | running
  | completed
  | failed
  | cancelled
deriving DecidableEq

/-- `WorkflowStep` (orchestrator.py lines 30-40).  `timeout`,
`retry_count`, `max_retries` and `metadata` exist in the dataclass but
are never read by the engine. -/
structure WorkflowStep where
  id : String
  agent_name : String
  task : Val
  dependencies : List String
  timeout : Option Nat
  retry_count : Nat
  max_retries : Nat
  metadata : List (String × Val)
deriving DecidableEq

/-- `WorkflowResult` (orchestrator.py lines 43-51).  The workflow UUID is
modelled as a `Nat`; `execution_time` is declared with default `0.0` and
never assigned by the engine, so it is carried as a constant. -/
structure WorkflowResult where
  workflow_id : Nat
  state : WorkflowState
  results : List (String × Val)
  errors : List (String × String)
  execution_time : Nat
deriving DecidableEq

/-- `WorkflowDefinition` (orchestrator.py lines 54-61). -/
structure WorkflowDefinition where
  name : String
  description : String
  steps : List WorkflowStep
  max_concurrent : Nat
  timeout : Option Nat
  metadata : List (String × Val)
deriving DecidableEq

/-- The behaviour of a registered agent: `agent.execute(task, context)`
of one loop round, as a function of the loop-iteration index (so that an
agent may answer differently on a later call) and the prepared task.
`Except.error msg` models the coroutine raising an exception whose
`str(...)` is `msg`. -/
def AgentBehavior : Type := Nat → Val → Except String Val

/-- The orchestrator state that `run_workflow` reads: the agent registry,
the created workflows and the live Status Table (`active_workflows`). -/
structure Orchestrator where
  agents : List (String × AgentBehavior)
  workflows : List (Nat × WorkflowDefinition)
  active_workflows : List (Nat × WorkflowResult)

/-- `AgentOrchestrator._execute_step` (orchestrator.py lines 227-249):
look the agent up by name (absence raises
`ValueError(f"Agent ... not found")`), resolve the task's placeholders
against the accumulated `step_results`, then run the agent. -/
def execute_step (agents : List (String × AgentBehavior)) (iter : Nat)
    (step : WorkflowStep) (step_results : List (String × Val)) : Except String Val :=
  match dlookup agents step.agent_name with
  | none => Except.error ("Agent " ++ step.agent_name ++ " not found")
  | some f => f iter (prepare_task step.task step_results)

/-- The per-run mutable state of the scheduling loop: the `completed_steps`
set, the `step_results` dict, and the two fields of the `WorkflowResult`
object that the loop mutates in place (`errors` and `state`), together
with a ghost trace recording every dispatch for the isolation proofs. -/
structure DispatchEvent where
  iter : Nat
  batchIds : List String
  stepId : String
  resultsAtDispatch : List (String × Val)
deriving DecidableEq

structure LoopSt where
  completed : List String
  step_results : List (String × Val)
  errors : List (String × String)
  state : WorkflowState
  trace : List DispatchEvent
deriving DecidableEq

/-- Processing one entry of the `zip(executable_steps[:max_concurrent],
step_results_batch)` loop (orchestrator.py lines 197-207): an exception
outcome records the error and sets the state to FAILED (and nothing
else); a success stores the result and adds the id to `completed_steps`. -/
def processOutcome (st : LoopSt) (p : WorkflowStep × Except String Val) : LoopSt :=
  match p.2 with
  | Except.error msg =>
      { st with errors := dinsert st.errors p.1.id msg, state := WorkflowState.failed }
  | Except.ok v =>
      { st with step_results := dinsert st.step_results p.1.id v,
                completed := sadd st.completed p.1.id }

/-- The frontier computation (orchestrator.py lines 173-177): steps not
yet completed all of whose dependency ids are completed. -/
def frontierOf (defn : WorkflowDefinition) (completed : List String) : List WorkflowStep :=
  defn.steps.filter (fun s =>
    !(scontains completed s.id) && s.dependencies.all (fun d => scontains completed d))

/-- Python `repr` of a list of strings, as used by the f-string in the
circular-dependency message. -/
def pyListRepr (l : List String) : String :=
  "[" ++ String.intercalate ", " (l.map (fun s => "\x27" ++ s ++ "\x27")) ++ "]"

/-- The message of the `ValueError` raised at orchestrator.py line 185. -/
def cycleMsg (defn : WorkflowDefinition) (completed : List String) : String :=
  "Circular dependency detected in steps: " ++
    pyListRepr ((defn.steps.filter (fun s => !(scontains completed s.id))).map WorkflowStep.id)

/-- The ghost dispatch records for one batch: each dispatched step is
prepared against the `step_results` dict as it stands when the batch is
gathered (mutation happens only after the whole batch is awaited). -/
def batchEvents (iter : Nat) (batch : List WorkflowStep)
    (sr : List (String × Val)) : List DispatchEvent :=
  batch.map (fun s => DispatchEvent.mk iter (batch.map WorkflowStep.id) s.id sr)

/-- One batch (orchestrator.py lines 188-207): dispatch every step of the
batch against the pre-batch `step_results`, await them all, then fold the
outcomes into the loop state in batch order. -/
def runBatch (agents : List (String × AgentBehavior)) (iter : Nat)
    (batch : List WorkflowStep) (st : LoopSt) : LoopSt :=
  List.foldl processOutcome
    (LoopSt.mk st.completed st.step_results st.errors st.state
      (st.trace ++ batchEvents iter batch st.step_results))
    (batch.map (fun s => (s, execute_step agents iter s st.step_results)))

/-- Outcome of one evaluation of the `while` condition and (when taken)
one iteration of the loop body. -/
inductive LoopOut where
  | finished : LoopSt → LoopOut
  | raised : String → LoopSt → LoopOut
deriving DecidableEq

/-- One round of the scheduling loop (orchestrator.py lines 171-207):
exit when every step is completed; raise the circular-dependency
`ValueError` when the frontier is empty; skip the gather when the batch
slice is empty (`if tasks:`); otherwise run the batch. -/
def loopIter (agents : List (String × AgentBehavior)) (defn : WorkflowDefinition)
    (iter : Nat) (st : LoopSt) : Sum LoopOut LoopSt :=
  if st.completed.length < defn.steps.length then
    if (frontierOf defn st.completed).isEmpty then
      Sum.inl (LoopOut.raised (cycleMsg defn st.completed) st)
    else if ((frontierOf defn st.completed).take defn.max_concurrent).isEmpty then
      Sum.inr st
    else
      Sum.inr (runBatch agents iter ((frontierOf defn st.completed).take defn.max_concurrent) st)
  else
    Sum.inl (LoopOut.finished st)

/-- The scheduling loop, indexed by the number of `while`-condition
evaluations allowed; `none` means the loop has not finished within that
budget (in particular, a run that loops forever yields `none` for every
fuel). -/
def runLoop (agents : List (String × AgentBehavior)) (defn : WorkflowDefinition) :
    Nat → Nat → LoopSt → Option LoopOut
  | 0, _, _ => none
  | fuel + 1, iter, st =>
    match loopIter agents defn iter st with
    | Sum.inl out => some out
    | Sum.inr st2 => runLoop agents defn fuel (iter + 1) st2

/-- The `WorkflowResult` created at orchestrator.py lines 154-157. -/
def initialResult (wid : Nat) : WorkflowResult :=
  WorkflowResult.mk wid WorkflowState.running [] [] 0

/-- The result object after a normal loop exit (orchestrator.py lines
209-210): `results` is assigned the accumulated `step_results` and the
state is set to COMPLETED unconditionally, overwriting any FAILED set by
a step failure. -/
def finishResult (wid : Nat) (st : LoopSt) : WorkflowResult :=
  WorkflowResult.mk wid WorkflowState.completed st.step_results st.errors 0

/-- The result object after the `except` branch (orchestrator.py lines
213-215): state FAILED, the escaped exception recorded under the
reserved key `workflow`, and `results` still the empty dict because line
209 was never reached. -/
def raisedResult (wid : Nat) (msg : String) (st : LoopSt) : WorkflowResult :=
  WorkflowResult.mk wid WorkflowState.failed [] (dinsert st.errors "workflow" msg) 0

/-- What `run_workflow` hands back to its caller. -/
inductive RunOut where
  | raisedTop : String → List (Nat × WorkflowResult) → RunOut
  | returned : WorkflowResult → List (Nat × WorkflowResult) → List DispatchEvent → RunOut
deriving DecidableEq

/-- `AgentOrchestrator.run_workflow` (orchestrator.py lines 138-225).
An unknown workflow id raises `ValueError` before any result object
exists (`raisedTop`, carrying the untouched Status Table).  Otherwise a
fresh RUNNING result is inserted into `active_workflows`, the scheduling
loop runs, the `except` branch turns an escaped exception into a FAILED
result instead of re-raising, and the `finally` branch deletes the entry
from `active_workflows` before the result is returned (`returned` carries
the result, the Status Table at the moment of return, and the ghost
dispatch trace). -/
def run_workflow (orch : Orchestrator) (workflow_id : Nat) (fuel : Nat) : Option RunOut :=
  match dlookup orch.workflows workflow_id with
  | none =>
      some (RunOut.raisedTop ("Workflow " ++ toString workflow_id ++ " not found")
        orch.active_workflows)
  | some defn =>
    match runLoop orch.agents defn fuel 0 (LoopSt.mk [] [] [] WorkflowState.running []) with
    | none => none
    | some (LoopOut.finished st) =>
        some (RunOut.returned (finishResult workflow_id st)
          (ddelete (dinsert orch.active_workflows workflow_id (initialResult workflow_id))
            workflow_id)
          st.trace)
    | some (LoopOut.raised msg st) =>
        some (RunOut.returned (raisedResult workflow_id msg st)
          (ddelete (dinsert orch.active_workflows workflow_id (initialResult workflow_id))
            workflow_id)
          st.trace)

/-- A step record with the dataclass defaults of `WorkflowStep`
(`timeout=None`, `retry_count=0`, `max_retries=3`, `metadata=\x7b\x7d`). -/
def mkStep (i a : String) (t : Val) (deps : List String) : WorkflowStep :=
  WorkflowStep.mk i a t deps none 0 3 []

/-- A definition with the pydantic defaults of `WorkflowDefinition`
(`description=""`, `max_concurrent=5`, `timeout=None`). -/
def mkDef (steps : List WorkflowStep) : WorkflowDefinition :=
  WorkflowDefinition.mk "wf" "" steps 5 none []

/-- The loop state at entry of the `while` loop (orchestrator.py lines
168-169, with the result object freshly RUNNING). -/
def initSt : LoopSt := LoopSt.mk [] [] [] WorkflowState.running []

/-- An executor that returns its input task unchanged. -/
def echoAgent : AgentBehavior := fun _ v => Except.ok v

/-- Scenario A of the spec: `a` echoes `"hello"`, `b` depends on `a` and
echoes `"got \x7bstep.a\x7d"`. -/
def def9 : WorkflowDefinition := mkDef
  [ mkStep "a" "echo" (Val.vstr "hello") [],
    mkStep "b" "echo" (Val.vstr "got \x7bstep.a\x7d") ["a"] ]

def orch9 : Orchestrator := Orchestrator.mk [("echo", echoAgent)] [(1, def9)] []

/-- The two-step cyclic workflow: `a` depends on `b` and `b` on `a`. -/
def defCyc : WorkflowDefinition := mkDef
  [ mkStep "a" "echo" (Val.vstr "x") ["b"],
    mkStep "b" "echo" (Val.vstr "y") ["a"] ]

def orchCyc : Orchestrator := Orchestrator.mk [("echo", echoAgent)] [(1, defCyc)] []

/-- A single acyclic step bound to an agent name that was never
registered, so every dispatch of it fails deterministically. -/
def defGhost : WorkflowDefinition := mkDef [ mkStep "a" "ghost" (Val.vstr "t") [] ]

def orchGhost : Orchestrator := Orchestrator.mk [] [(1, defGhost)] []

/-- An executor that raises on the first loop round and succeeds on any
later round. -/
def flakyAgent : AgentBehavior := fun iter _ =>
  if iter == 0 then Except.error "boom" else Except.ok (Val.vstr "ok")

def defFlaky : WorkflowDefinition := mkDef [ mkStep "a" "flaky" (Val.vstr "t") [] ]

def orchFlaky : Orchestrator := Orchestrator.mk [("flaky", flakyAgent)] [(1, defFlaky)] []

/-- Three echo steps: `a` alone in the first batch, `p` and `q` together
in the second batch, `p` referencing its sibling `q`'s placeholder. -/
def defT : WorkflowDefinition := mkDef
  [ mkStep "a" "echo" (Val.vstr "base") [],
    mkStep "p" "echo" (Val.vstr "p \x7bstep.q\x7d") ["a"],
    mkStep "q" "echo" (Val.vstr "q \x7bstep.a\x7d") ["a"] ]

def orchT : Orchestrator := Orchestrator.mk [("echo", echoAgent)] [(1, defT)] []

/-- Modelled from the spec (refinement rendering of the claim that the
helper "replaces each textual occurrence of the pattern `\x7bstep.<id>\x7d`,
for every id present in the results map, ... and leaves every other
character of the string unchanged"): a single simultaneous left-to-right
scan of the original string, substituting at each position the first id
of the map whose placeholder starts there, and copying every other
character verbatim. -/
def specSimultaneousSubstAux (m : List (String × Val)) : Nat → List Char → List Char
  | _, [] => []
  | 0, s => s
  | n + 1, c :: t =>
    match m.find? (fun kv => leadsWith (placeholderOf kv.1) (c :: t)) with
    | some kv =>
        (strOf kv.2).data ++
          specSimultaneousSubstAux m n (List.drop ((placeholderOf kv.1).length - 1) t)
    | none => c :: specSimultaneousSubstAux m n t

def specSimultaneousSubst (m : List (String × Val)) (s : List Char) : List Char :=
  specSimultaneousSubstAux m s.length s

/-- The invariant that the keys of the `step_results` dict are completed
step ids. -/
def KeysSub (st : LoopSt) : Prop := ∀ kv ∈ st.step_results, kv.1 ∈ st.completed

/-- A dispatch event whose substitution dict contains no step of its own
batch: the dispatched step resolves placeholders only against results of
strictly earlier batches. -/
def GoodEvent (e : DispatchEvent) : Prop :=
  ∀ sid ∈ e.batchIds, ∀ kv ∈ e.resultsAtDispatch, kv.1 ≠ sid

def GoodTrace (tr : List DispatchEvent) : Prop := ∀ e ∈ tr, GoodEvent e

/-- The loop state carried by either loop outcome. -/
def stateOf : LoopOut → LoopSt
  | LoopOut.finished st => st
  | LoopOut.raised _ st => st

theorem dlookup_dinsert_self {κ α : Type} [DecidableEq κ] (m : List (κ × α)) (k : κ) (v : α) :
    dlookup (dinsert m k v) k = some v := by
  induction m with
  | nil => simp [dinsert, dlookup]
  | cons h t ih =>
    by_cases hk : h.1 = k
    · simp [dinsert, dlookup, hk]
    · simp [dinsert, dlookup, hk, ih]

theorem dlookup_ddelete_self {κ α : Type} [DecidableEq κ] (m : List (κ × α)) (k : κ) :
    dlookup (ddelete m k) k = none := by
  induction m with
  | nil => rfl
  | cons h t ih =>
    by_cases hk : h.1 = k
    · simp [ddelete, hk] at ih ⊢
      exact ih
    · simp [ddelete, hk, dlookup] at ih ⊢
      exact ih

/-- Claim C9: for the two-step workflow of Scenario A with the echo
executor, `run_workflow` returns `results` mapping `a` to `hello` and
`b` to `got hello`, an empty `errors` dict, and state COMPLETED (three
loop rounds suffice: one per batch plus the final condition check). -/
theorem scenario_a_linear_flow :
    run_workflow orch9 1 3 = some (RunOut.returned
      (WorkflowResult.mk 1 WorkflowState.completed
        [("a", Val.vstr "hello"), ("b", Val.vstr "got hello")] [] 0)
      []
      [DispatchEvent.mk 0 ["a"] "a" [],
       DispatchEvent.mk 1 ["b"] "b" [("a", Val.vstr "hello")]]) := by
  rfl

/-- Claim C2: after the flaky step `a` fails in round 0, the engine
records `errors[a] = boom` and sets the state to FAILED, but does not
add `a` to `completed_steps`; the dispatch trace shows `a` dispatched
again in round 1, refuting "the same step is never dispatched again". -/
theorem failed_step_redispatched :
    run_workflow orchFlaky 1 3 = some (RunOut.returned
      (WorkflowResult.mk 1 WorkflowState.completed
        [("a", Val.vstr "ok")] [("a", "boom")] 0)
      []
      [DispatchEvent.mk 0 ["a"] "a" [], DispatchEvent.mk 1 ["a"] "a" []]) := by
  rfl

/-- Claim C3: a run in which the step failure `errors[a] = boom` was
recorded nevertheless returns with state COMPLETED, because line 210
overwrites the FAILED state unconditionally once the loop exits; so the
state is not monotonic and a run with recorded failures does not end
FAILED. -/
theorem errors_recorded_but_state_completed :
    (∃ tbl tr, run_workflow orchFlaky 1 3 = some (RunOut.returned
      (WorkflowResult.mk 1 WorkflowState.completed
        [("a", Val.vstr "ok")] [("a", "boom")] 0) tbl tr)) ∧
    WorkflowState.completed ≠ WorkflowState.failed := by
  constructor
  · exact ⟨[], [DispatchEvent.mk 0 ["a"] "a" [], DispatchEvent.mk 1 ["a"] "a" []], rfl⟩
  · decide

/-- Counterexample to claim C4: on the cyclic two-step workflow the
escaped `ValueError` is caught and a FAILED `WorkflowResult` is returned
normally (the caller sees `returned`, not a re-raised exception), and
the Status Table at the moment of return is empty, so no partial result
is persisted there. -/
theorem cycle_exception_not_reraised :
    run_workflow orchCyc 1 2 = some (RunOut.returned
      (WorkflowResult.mk 1 WorkflowState.failed []
        [("workflow",
          "Circular dependency detected in steps: [\x27a\x27, \x27b\x27]")] 0)
      [] []) := by
  rfl

/-- Counterexample to claim C5: for a workflow id that is not among the
created workflows, `run_workflow` raises the bare
`ValueError("Workflow 99 not found")` before any `WorkflowResult` is
created, and the Status Table it leaves behind is the untouched empty
one — the caller receives an exception with no accompanying stored
partial result. -/
theorem unknown_workflow_raises_bare :
    run_workflow orchCyc 99 4 = some (RunOut.raisedTop "Workflow 99 not found" []) := by
  rfl

/-- Counterexample to claim C8: with results inserted as `a` then `b`,
where `a`'s result is the text `\x7bstep.b\x7d`, the helper returns `X`
(the cascade substitutes the injected placeholder), while replacing each
textual occurrence of a placeholder of the original string and leaving
every other character unchanged — the spec-modelled simultaneous
substitution — returns `\x7bstep.b\x7d`. -/
theorem prepare_task_not_simultaneous :
    prepare_task (Val.vstr "\x7bstep.a\x7d")
        [("a", Val.vstr "\x7bstep.b\x7d"), ("b", Val.vstr "X")] = Val.vstr "X" ∧
    String.mk (specSimultaneousSubst
        [("a", Val.vstr "\x7bstep.b\x7d"), ("b", Val.vstr "X")]
        "\x7bstep.a\x7d".data) = "\x7bstep.b\x7d" ∧
    Val.vstr "X" ≠ Val.vstr "\x7bstep.b\x7d" := by
  refine ⟨rfl, rfl, ?_⟩
  decide

/-- Claim C10: replacement is per occurrence, not only the first
(`X and X`); the map entries are applied sequentially in insertion
order, each to the string produced so far; consequently a placeholder
injected by an earlier substitution is substituted by a later entry
(`won`), while with the opposite insertion order the injected
placeholder survives (`\x7bstep.b\x7d`). -/
theorem substitution_all_occurrences_order_cascade :
    prepare_task (Val.vstr "\x7bstep.a\x7d and \x7bstep.a\x7d") [("a", Val.vstr "X")]
      = Val.vstr "X and X" ∧
    (∀ (s : String) (kv1 kv2 : String × Val),
      prepare_task (Val.vstr s) [kv1, kv2]
        = prepare_task (prepare_task (Val.vstr s) [kv1]) [kv2]) ∧
    prepare_task (Val.vstr "\x7bstep.a\x7d")
        [("a", Val.vstr "\x7bstep.b\x7d"), ("b", Val.vstr "won")] = Val.vstr "won" ∧
    prepare_task (Val.vstr "\x7bstep.a\x7d")
        [("b", Val.vstr "won"), ("a", Val.vstr "\x7bstep.b\x7d")]
      = Val.vstr "\x7bstep.b\x7d" := by
  refine ⟨rfl, ?_, rfl, rfl⟩
  intro s kv1 kv2
  rfl

theorem run_workflow_none (orch : Orchestrator) (wid fuel : Nat) (defn : WorkflowDefinition)
    (h1 : dlookup orch.workflows wid = some defn)
    (h2 : runLoop orch.agents defn fuel 0 (LoopSt.mk [] [] [] WorkflowState.running []) = none) :
    run_workflow orch wid fuel = none := by
  unfold run_workflow
  simp only [h1, h2]

theorem run_workflow_finished_eq (orch : Orchestrator) (wid fuel : Nat)
    (defn : WorkflowDefinition) (st : LoopSt)
    (h1 : dlookup orch.workflows wid = some defn)
    (h2 : runLoop orch.agents defn fuel 0 (LoopSt.mk [] [] [] WorkflowState.running [])
        = some (LoopOut.finished st)) :
    run_workflow orch wid fuel = some (RunOut.returned (finishResult wid st)
      (ddelete (dinsert orch.active_workflows wid (initialResult wid)) wid) st.trace) := by
  unfold run_workflow
  simp only [h1, h2]

theorem run_workflow_raised_eq (orch : Orchestrator) (wid fuel : Nat)
    (defn : WorkflowDefinition) (msg : String) (st : LoopSt)
    (h1 : dlookup orch.workflows wid = some defn)
    (h2 : runLoop orch.agents defn fuel 0 (LoopSt.mk [] [] [] WorkflowState.running [])
        = some (LoopOut.raised msg st)) :
    run_workflow orch wid fuel = some (RunOut.returned (raisedResult wid msg st)
      (ddelete (dinsert orch.active_workflows wid (initialResult wid)) wid) st.trace) := by
  unfold run_workflow
  simp only [h1, h2]

theorem ghost_loop_diverges (fuel : Nat) :
    ∀ (iter : Nat) (E : List (String × String)) (S : WorkflowState) (T : List DispatchEvent),
      runLoop [] defGhost fuel iter (LoopSt.mk [] [] E S T) = none := by
  induction fuel with
  | zero => intro iter E S T; rfl
  | succ n ih =>
    intro iter E S T
    exact ih (iter + 1) (dinsert E "a" "Agent ghost not found") WorkflowState.failed
      (T ++ [DispatchEvent.mk iter ["a"] "a" []])

/-- Claim C1: the acyclic single-step workflow whose one step is bound
to the unregistered agent `ghost` makes `run_workflow` loop forever: the
failure branch never adds the failed step to `completed_steps`, so it is
frontier-eligible and redispatched on every round, and no number of loop
rounds finishes the run. -/
theorem run_workflow_diverges_on_failing_step :
    ∀ fuel : Nat, run_workflow orchGhost 1 fuel = none := by
  intro fuel
  exact run_workflow_none orchGhost 1 fuel defGhost rfl
    (ghost_loop_diverges fuel 0 [] WorkflowState.running [])

theorem runLoop_empty_frontier (ag : List (String × AgentBehavior))
    (defn : WorkflowDefinition) (st : LoopSt) (fuel iter : Nat)
    (h1 : st.completed.length < defn.steps.length)
    (h2 : frontierOf defn st.completed = []) :
    runLoop ag defn (fuel + 1) iter st
      = some (LoopOut.raised (cycleMsg defn st.completed) st) := by
  have hli : loopIter ag defn iter st
      = Sum.inl (LoopOut.raised (cycleMsg defn st.completed) st) := by
    unfold loopIter
    rw [if_pos h1, h2]
    rfl
  simp only [runLoop, hli]

/-- Claim C6: whenever the frontier is empty while steps remain
incomplete, the very next loop round raises the circular-dependency
`ValueError` — independently of how much fuel remains, so the run ends
in bounded time — whose message (`cycleMsg`) names exactly the
not-yet-completed step ids; and concretely the 2-step graph with
`a` and `b` depending on each other returns state FAILED with the
workflow-level error naming `a` and `b`. -/
theorem empty_frontier_fails_fast :
    (∀ (ag : List (String × AgentBehavior)) (defn : WorkflowDefinition) (st : LoopSt)
        (fuel iter : Nat),
      st.completed.length < defn.steps.length →
      frontierOf defn st.completed = [] →
      runLoop ag defn (fuel + 1) iter st
        = some (LoopOut.raised (cycleMsg defn st.completed) st)) ∧
    (∀ fuel : Nat, run_workflow orchCyc 1 (fuel + 1) = some (RunOut.returned
      (WorkflowResult.mk 1 WorkflowState.failed []
        [("workflow", "Circular dependency detected in steps: [\x27a\x27, \x27b\x27]")] 0)
      [] [])) := by
  constructor
  · exact runLoop_empty_frontier
  · intro fuel
    have h2 := runLoop_empty_frontier orchCyc.agents defCyc
      (LoopSt.mk [] [] [] WorkflowState.running []) fuel 0 (by decide) rfl
    rw [run_workflow_raised_eq orchCyc 1 (fuel + 1) defCyc
      (cycleMsg defCyc (LoopSt.mk [] [] [] WorkflowState.running []).completed)
      (LoopSt.mk [] [] [] WorkflowState.running []) rfl h2]
    rfl

theorem empty_frontier_fails_fast_witness :
    runLoop orchCyc.agents defCyc 1 0 initSt
      = some (LoopOut.raised (cycleMsg defCyc initSt.completed) initSt) ∧
    run_workflow orchCyc 1 1 = some (RunOut.returned
      (WorkflowResult.mk 1 WorkflowState.failed []
        [("workflow", "Circular dependency detected in steps: [\x27a\x27, \x27b\x27]")] 0)
      [] []) :=
  ⟨empty_frontier_fails_fast.1 orchCyc.agents defCyc initSt 0 0 (by decide) rfl,
   empty_frontier_fails_fast.2 0⟩

/-- Claim C4 as amended: an exception escaping the scheduling loop is
caught, recorded under the reserved key `workflow`, the state is set to
FAILED, and the `WorkflowResult` is returned normally to the caller
(the exception is not re-raised); the entry for the workflow has been
deleted from the Status Table by the `finally` block before the return,
so the partial result is no longer persisted there (and its `results`
dict is left empty because line 209 is never reached). -/
theorem workflow_exception_caught_not_reraised (orch : Orchestrator) (wid fuel : Nat)
    (defn : WorkflowDefinition) (msg : String) (st : LoopSt)
    (h1 : dlookup orch.workflows wid = some defn)
    (h2 : runLoop orch.agents defn fuel 0 (LoopSt.mk [] [] [] WorkflowState.running [])
        = some (LoopOut.raised msg st)) :
    run_workflow orch wid fuel = some (RunOut.returned (raisedResult wid msg st)
      (ddelete (dinsert orch.active_workflows wid (initialResult wid)) wid) st.trace) ∧
    (raisedResult wid msg st).state = WorkflowState.failed ∧
    (raisedResult wid msg st).results = [] ∧
    dlookup (raisedResult wid msg st).errors "workflow" = some msg ∧
    dlookup (ddelete (dinsert orch.active_workflows wid (initialResult wid)) wid) wid
      = none := by
  refine ⟨run_workflow_raised_eq orch wid fuel defn msg st h1 h2, rfl, rfl, ?_, ?_⟩
  · exact dlookup_dinsert_self st.errors "workflow" msg
  · exact dlookup_ddelete_self (dinsert orch.active_workflows wid (initialResult wid)) wid

theorem workflow_exception_caught_not_reraised_witness :
    run_workflow orchCyc 1 2 = some (RunOut.returned
      (raisedResult 1 "Circular dependency detected in steps: [\x27a\x27, \x27b\x27]" initSt)
      (ddelete (dinsert orchCyc.active_workflows 1 (initialResult 1)) 1) initSt.trace) ∧
    (raisedResult 1 "Circular dependency detected in steps: [\x27a\x27, \x27b\x27]"
      initSt).state = WorkflowState.failed ∧
    (raisedResult 1 "Circular dependency detected in steps: [\x27a\x27, \x27b\x27]"
      initSt).results = [] ∧
    dlookup (raisedResult 1 "Circular dependency detected in steps: [\x27a\x27, \x27b\x27]"
      initSt).errors "workflow"
      = some "Circular dependency detected in steps: [\x27a\x27, \x27b\x27]" ∧
    dlookup (ddelete (dinsert orchCyc.active_workflows 1 (initialResult 1)) 1) 1 = none :=
  workflow_exception_caught_not_reraised orchCyc 1 2 defCyc
    "Circular dependency detected in steps: [\x27a\x27, \x27b\x27]" initSt rfl rfl

/-- Claim C5 as amended: for a workflow id that was actually created,
whenever `run_workflow` returns at all it hands the caller a
`WorkflowResult` (never a bare exception); only an unknown workflow id
raises, and it does so before any result object exists. -/
theorem known_workflow_always_returns_result (orch : Orchestrator) (wid fuel : Nat)
    (out : RunOut)
    (h1 : (dlookup orch.workflows wid).isSome = true)
    (h2 : run_workflow orch wid fuel = some out) :
    ∃ r tbl tr, out = RunOut.returned r tbl tr := by
  cases hd : dlookup orch.workflows wid with
  | none => rw [hd] at h1; simp at h1
  | some defn =>
    cases hr : runLoop orch.agents defn fuel 0 (LoopSt.mk [] [] [] WorkflowState.running [])
      with
    | none =>
      rw [run_workflow_none orch wid fuel defn hd hr] at h2
      exact absurd h2 (by simp)
    | some o =>
      cases o with
      | finished st =>
        rw [run_workflow_finished_eq orch wid fuel defn st hd hr] at h2
        exact ⟨finishResult wid st,
          ddelete (dinsert orch.active_workflows wid (initialResult wid)) wid, st.trace,
          (Option.some.injEq _ _ ▸ h2).symm⟩
      | raised msg st =>
        rw [run_workflow_raised_eq orch wid fuel defn msg st hd hr] at h2
        exact ⟨raisedResult wid msg st,
          ddelete (dinsert orch.active_workflows wid (initialResult wid)) wid, st.trace,
          (Option.some.injEq _ _ ▸ h2).symm⟩

theorem known_workflow_always_returns_result_witness :
    (dlookup orch9.workflows 1).isSome = true ∧
    (∃ r tbl tr,
      RunOut.returned
        (WorkflowResult.mk 1 WorkflowState.completed
          [("a", Val.vstr "hello"), ("b", Val.vstr "got hello")] [] 0)
        []
        [DispatchEvent.mk 0 ["a"] "a" [],
         DispatchEvent.mk 1 ["b"] "b" [("a", Val.vstr "hello")]]
      = RunOut.returned r tbl tr) :=
  ⟨rfl, known_workflow_always_returns_result orch9 1 3
    (RunOut.returned
      (WorkflowResult.mk 1 WorkflowState.completed
        [("a", Val.vstr "hello"), ("b", Val.vstr "got hello")] [] 0)
      []
      [DispatchEvent.mk 0 ["a"] "a" [],
       DispatchEvent.mk 1 ["b"] "b" [("a", Val.vstr "hello")]])
    rfl rfl⟩

theorem scontains_iff (l : List String) (x : String) : scontains l x = true ↔ x ∈ l := by
  induction l with
  | nil => simp [scontains]
  | cons y t ih =>
    show (y == x || scontains t x) = true ↔ x ∈ y :: t
    rw [Bool.or_eq_true, beq_iff_eq, ih, List.mem_cons]
    exact or_congr eq_comm Iff.rfl

theorem mem_dinsert {κ α : Type} [DecidableEq κ] (m : List (κ × α)) (k : κ) (v : α)
    (kv : κ × α) (h : kv ∈ dinsert m k v) : kv ∈ m ∨ kv = (k, v) := by
  induction m with
  | nil =>
    simp [dinsert] at h
    exact Or.inr h
  | cons h2 t ih =>
    by_cases hk : h2.1 = k
    · rw [dinsert, if_pos hk] at h
      rcases List.mem_cons.mp h with h3 | h3
      · exact Or.inr (by rw [h3, hk])
      · exact Or.inl (List.mem_cons_of_mem h2 h3)
    · rw [dinsert, if_neg hk] at h
      rcases List.mem_cons.mp h with h3 | h3
      · exact Or.inl (h3 ▸ List.mem_cons_self h2 t)
      · rcases ih h3 with h4 | h4
        · exact Or.inl (List.mem_cons_of_mem h2 h4)
        · exact Or.inr h4

theorem mem_sadd_of_mem (s : List String) (x y : String) (h : x ∈ s) : x ∈ sadd s y := by
  unfold sadd
  split
  · exact h
  · exact List.mem_append_left _ h

theorem self_mem_sadd (s : List String) (y : String) : y ∈ sadd s y := by
  unfold sadd
  split
  · next h => exact (scontains_iff s y).mp h
  · exact List.mem_append_right _ (List.mem_singleton.mpr rfl)

theorem processOutcome_trace (st : LoopSt) (p : WorkflowStep × Except String Val) :
    (processOutcome st p).trace = st.trace := by
  cases hp : p.2 <;> simp [processOutcome, hp]

theorem processOutcome_keys (st : LoopSt) (p : WorkflowStep × Except String Val)
    (h : KeysSub st) : KeysSub (processOutcome st p) := by
  cases hp : p.2 with
  | error msg =>
    intro kv hkv
    simp only [processOutcome, hp] at hkv ⊢
    exact h kv hkv
  | ok v =>
    intro kv hkv
    simp only [processOutcome, hp] at hkv ⊢
    rcases mem_dinsert st.step_results p.1.id v kv hkv with h1 | h1
    · exact mem_sadd_of_mem _ _ _ (h kv h1)
    · rw [h1]
      exact self_mem_sadd st.completed p.1.id

theorem foldl_processOutcome_trace (l : List (WorkflowStep × Except String Val)) :
    ∀ st : LoopSt, (List.foldl processOutcome st l).trace = st.trace := by
  induction l with
  | nil => intro st; rfl
  | cons p t ih =>
    intro st
    rw [List.foldl_cons, ih, processOutcome_trace]

theorem foldl_processOutcome_keys (l : List (WorkflowStep × Except String Val)) :
    ∀ st : LoopSt, KeysSub st → KeysSub (List.foldl processOutcome st l) := by
  induction l with
  | nil => intro st h; exact h
  | cons p t ih =>
    intro st h
    rw [List.foldl_cons]
    exact ih _ (processOutcome_keys st p h)

theorem runBatch_trace (ag : List (String × AgentBehavior)) (iter : Nat)
    (batch : List WorkflowStep) (st : LoopSt) :
    (runBatch ag iter batch st).trace = st.trace ++ batchEvents iter batch st.step_results := by
  unfold runBatch
  rw [foldl_processOutcome_trace]

theorem runBatch_keys (ag : List (String × AgentBehavior)) (iter : Nat)
    (batch : List WorkflowStep) (st : LoopSt) (h : KeysSub st) :
    KeysSub (runBatch ag iter batch st) := by
  unfold runBatch
  exact foldl_processOutcome_keys _ _ h

theorem runBatch_good (ag : List (String × AgentBehavior)) (iter : Nat)
    (batch : List WorkflowStep) (st : LoopSt)
    (hk : KeysSub st) (hg : GoodTrace st.trace)
    (hb : ∀ s ∈ batch, s.id ∉ st.completed) :
    GoodTrace (runBatch ag iter batch st).trace := by
  rw [runBatch_trace]
  intro e he
  rcases List.mem_append.mp he with h1 | h1
  · exact hg e h1
  · rcases List.mem_map.mp h1 with ⟨s, hs, hse⟩
    rw [← hse]
    intro sid hsid kv hkv
    rcases List.mem_map.mp hsid with ⟨s2, hs2, hsid2⟩
    have hc := hk kv hkv
    intro hEq
    rw [hEq, ← hsid2] at hc
    exact hb s2 hs2 hc

theorem frontier_not_completed (defn : WorkflowDefinition) (c : List String)
    (s : WorkflowStep) (h : s ∈ frontierOf defn c) : s.id ∉ c := by
  unfold frontierOf at h
  have h2 := (List.mem_filter.mp h).2
  rw [Bool.and_eq_true] at h2
  intro hmem
  have h3 := (scontains_iff c s.id).mpr hmem
  rw [h3] at h2
  exact absurd h2.1 (by simp)

theorem runLoop_inv (fuel : Nat) :
    ∀ (ag : List (String × AgentBehavior)) (defn : WorkflowDefinition) (iter : Nat)
      (st : LoopSt) (out : LoopOut),
      KeysSub st → GoodTrace st.trace → runLoop ag defn fuel iter st = some out →
      KeysSub (stateOf out) ∧ GoodTrace (stateOf out).trace := by
  induction fuel with
  | zero =>
    intro ag defn iter st out _ _ h
    exact absurd h (by simp [runLoop])
  | succ n ih =>
    intro ag defn iter st out hk hg h
    rw [runLoop] at h
    unfold loopIter at h
    by_cases h1 : st.completed.length < defn.steps.length
    · rw [if_pos h1] at h
      by_cases h2 : (frontierOf defn st.completed).isEmpty = true
      · rw [if_pos h2] at h
        simp only [Option.some.injEq] at h
        rw [← h]
        exact ⟨hk, hg⟩
      · rw [if_neg h2] at h
        by_cases h3 : ((frontierOf defn st.completed).take defn.max_concurrent).isEmpty = true
        · rw [if_pos h3] at h
          exact ih ag defn (iter + 1) st out hk hg h
        · rw [if_neg h3] at h
          refine ih ag defn (iter + 1) _ out ?_ ?_ h
          · exact runBatch_keys ag iter _ st hk
          · refine runBatch_good ag iter _ st hk hg ?_
            intro s hs
            exact frontier_not_completed defn st.completed s
              (List.take_subset defn.max_concurrent _ hs)
    · rw [if_neg h1] at h
      simp only [Option.some.injEq] at h
      rw [← h]
      exact ⟨hk, hg⟩

/-- Claim C7: whatever the orchestrator, workflow and fuel, every
dispatch event of a returned run resolves its placeholders against a
`step_results` dict that contains no id of the event's own batch: the
accumulated results visible at dispatch are exactly those of strictly
earlier batches, because the batch outcomes are folded into the dict
only after the whole batch has been awaited. -/
theorem batch_isolation (orch : Orchestrator) (wid fuel : Nat) (r : WorkflowResult)
    (tbl : List (Nat × WorkflowResult)) (tr : List DispatchEvent)
    (h : run_workflow orch wid fuel = some (RunOut.returned r tbl tr)) :
    ∀ e ∈ tr, GoodEvent e := by
  cases hd : dlookup orch.workflows wid with
  | none =>
    unfold run_workflow at h
    rw [hd] at h
    simp at h
  | some defn =>
    cases hr : runLoop orch.agents defn fuel 0 (LoopSt.mk [] [] [] WorkflowState.running [])
      with
    | none =>
      rw [run_workflow_none orch wid fuel defn hd hr] at h
      exact absurd h (by simp)
    | some o =>
      have hinv := runLoop_inv fuel orch.agents defn 0
        (LoopSt.mk [] [] [] WorkflowState.running []) o
        (by intro kv hkv; cases hkv) (by intro e he; cases he) hr
      cases o with
      | finished st =>
        rw [run_workflow_finished_eq orch wid fuel defn st hd hr] at h
        simp only [Option.some.injEq, RunOut.returned.injEq] at h
        rw [← h.2.2]
        exact hinv.2
      | raised msg st =>
        rw [run_workflow_raised_eq orch wid fuel defn msg st hd hr] at h
        simp only [Option.some.injEq, RunOut.returned.injEq] at h
        rw [← h.2.2]
        exact hinv.2

theorem batch_isolation_witness :
    run_workflow orchT 1 4 = some (RunOut.returned
      (WorkflowResult.mk 1 WorkflowState.completed
        [("a", Val.vstr "base"), ("p", Val.vstr "p \x7bstep.q\x7d"), ("q", Val.vstr "q base")]
        [] 0)
      []
      [DispatchEvent.mk 0 ["a"] "a" [],
       DispatchEvent.mk 1 ["p", "q"] "p" [("a", Val.vstr "base")],
       DispatchEvent.mk 1 ["p", "q"] "q" [("a", Val.vstr "base")]]) ∧
    GoodEvent (DispatchEvent.mk 1 ["p", "q"] "p" [("a", Val.vstr "base")]) :=
  ⟨rfl,
   batch_isolation orchT 1 4
    (WorkflowResult.mk 1 WorkflowState.completed
      [("a", Val.vstr "base"), ("p", Val.vstr "p \x7bstep.q\x7d"), ("q", Val.vstr "q base")]
      [] 0)
    []
    [DispatchEvent.mk 0 ["a"] "a" [],
     DispatchEvent.mk 1 ["p", "q"] "p" [("a", Val.vstr "base")],
     DispatchEvent.mk 1 ["p", "q"] "q" [("a", Val.vstr "base")]]
    rfl
    (DispatchEvent.mk 1 ["p", "q"] "p" [("a", Val.vstr "base")])
    (by simp)⟩

theorem splitByAux_ne_nil (pat : List Char) : ∀ (n : Nat) (s : List Char),
    splitByAux pat n s ≠ [] := by
  intro n s
  match n, s with
  | _, [] => simp [splitByAux]
  | 0, c :: t => simp [splitByAux]
  | m + 1, c :: t =>
    simp only [splitByAux]
    split
    · simp
    · split <;> simp

theorem joinWith_cons_cons (rep c : List Char) (h : List Char) (r : List (List Char)) :
    joinWith rep ((c ++ h) :: r) = c ++ joinWith rep (h :: r) := by
  cases r with
  | nil => rfl
  | cons y rr => simp [joinWith, List.append_assoc]

theorem replaceAllAux_eq_join (pat rep : List Char) : ∀ (n : Nat) (s : List Char),
    replaceAllAux pat rep n s = joinWith rep (splitByAux pat n s) := by
  intro n
  induction n with
  | zero => intro s; cases s <;> rfl
  | succ m ih =>
    intro s
    cases s with
    | nil => rfl
    | cons c t =>
      simp only [replaceAllAux, splitByAux]
      by_cases hc : (!pat.isEmpty && leadsWith pat (c :: t)) = true
      · rw [if_pos hc, if_pos hc]
        cases hsp : splitByAux pat m (List.drop (pat.length - 1) t) with
        | nil => exact absurd hsp (splitByAux_ne_nil pat m _)
        | cons hh rr =>
          rw [ih, hsp]
          rfl
      · rw [if_neg hc, if_neg hc]
        cases hsp : splitByAux pat m t with
        | nil => exact absurd hsp (splitByAux_ne_nil pat m t)
        | cons hh rr =>
          rw [ih, hsp]
          exact (joinWith_cons_cons rep [c] hh rr).symm

theorem not_contains_splitByAux (pat : List Char) : ∀ (n : Nat) (s : List Char),
    containsSub s pat = false → splitByAux pat n s = [s] := by
  intro n
  induction n with
  | zero => intro s h; cases s <;> rfl
  | succ m ih =>
    intro s h
    cases s with
    | nil => rfl
    | cons c t =>
      simp only [containsSub] at h
      cases hl : leadsWith pat (c :: t) with
      | true => rw [hl] at h; simp at h
      | false =>
        rw [hl, Bool.false_or] at h
        have hcond : (!pat.isEmpty && leadsWith pat (c :: t)) = false := by
          rw [hl, Bool.and_false]
        simp [splitByAux, hcond, ih t h]

/-- Claim C8 as amended: `_prepare_task` returns every non-string task
unchanged; a string task is processed by iterating the results dict in
insertion order and, for each id whose placeholder occurs in the current
string, replacing every left-to-right non-overlapping occurrence of
`\x7bstep.<id>\x7d` by the stringified result — for a single entry this is
exactly joining the placeholder-split fragments of the string with the
replacement (so all occurrences are replaced and the fragments between
them are untouched) — and the per-id substitutions compose sequentially,
so text injected by an earlier entry is itself subject to later entries
(the cascade of C10). -/
theorem prepare_task_sequential_replace :
    (∀ (m : List (String × Val)) (r : String), prepare_task (Val.vother r) m = Val.vother r) ∧
    (∀ (s i : String) (v : Val),
      prepare_task (Val.vstr s) [(i, v)]
        = Val.vstr (String.mk (joinWith (strOf v).data (splitBy (placeholderOf i) s.data)))) ∧
    (∀ (s : String) (m1 m2 : List (String × Val)),
      prepare_task (Val.vstr s) (m1 ++ m2) = prepare_task (prepare_task (Val.vstr s) m1) m2)
    := by
  refine ⟨fun m r => rfl, ?_, ?_⟩
  · intro s i v
    show Val.vstr (String.mk (substituteOne s.data (i, v))) = _
    cases hcb : containsSub s.data (placeholderOf i) with
    | true =>
      simp only [substituteOne, hcb, if_true]
      rw [show replaceAll (placeholderOf i) (strOf v).data s.data
          = replaceAllAux (placeholderOf i) (strOf v).data s.data.length s.data from rfl]
      rw [replaceAllAux_eq_join]
      rfl
    | false =>
      simp only [substituteOne, hcb]
      rw [show splitBy (placeholderOf i) s.data
          = splitByAux (placeholderOf i) s.data.length s.data from rfl]
      rw [not_contains_splitByAux (placeholderOf i) s.data.length s.data hcb]
      rfl
  · intro s m1 m2
    simp [prepare_task, List.foldl_append]

end Neurostack
